import Mathlib

/-!
Verification of the test-submission and scoring engine of an exam-preparation
backend (Django project: apps `exams`, `accounts`, `subscriptions`).

The embedding below translates the relevant parts of `exams/models.py` and
`exams/views.py` (class `TestSubmissionViewSet` and the `RevisionLog` /
`UnlockedTestCard` / `Answer` models) into Lean.  Conventions:

* Python floats (`FloatField`) are modelled as `ℚ`.
* Database tables are lists of rows; `unique_together` constraints are
  modelled explicitly where get-or-create semantics depends on them.
* Presentation-only columns (question text, option labels, names, topics,
  timestamps) are omitted: no modelled operation reads them.
* Fallible request handlers return `Except Err _`; Django rolls back the
  enclosing `transaction.atomic()` block on an exception, so an error result
  carries no new state.
* Django querysets with a declared or explicit ordering are modelled by
  a stable sort (`List.insertionSort`, matching the stable order-by of
  SQL backends); `.first()` on an unordered queryset orders by primary
  key, which is likewise modelled by sorting on the `id` column.
* `max(0, total_score)` is written as an `if` on `total_score < 0`,
  which is the same function.
-/

inductive QOption
  | A | B | C | D
  deriving DecidableEq, Repr

/-- `TestCard.TestType`: SUBJECT / FULL / CHALLENGE / QUIZ. -/
inductive TestType
  | SUBJECT | FULL | CHALLENGE | QUIZ
  deriving DecidableEq, Repr

/-- `Answer.MarkReason`: GUESS / TIME / CONCEPT. -/
inductive MarkReason
  | GUESS | TIME | CONCEPT
  deriving DecidableEq, Repr

/-- `RevisionLog.Reason`. -/
inductive RevReason
  | INCORRECT | MARKED_GUESS | MARKED_TIME | MARKED_CONCEPT
  deriving DecidableEq, Repr

/-- `TestSubmission.Status`. -/
inductive SubStatus
  | in_progress | completed
  deriving DecidableEq, Repr

/-- `exams.models.Question` (scoring-relevant columns). -/
structure Question where
  id : Nat
  test_card : String
  correct_option : QOption
  positive_marks : ℚ
  negative_marks : ℚ
  deriving DecidableEq, Repr

/-- `exams.models.TestCard` (scoring/unlock-relevant columns). -/
structure TestCard where
  id : String
  sub_exam : String
  test_type : TestType
  order : Nat
  price_points : Nat
  reward_points : Nat
  is_active : Bool
  deriving DecidableEq, Repr

/-- `exams.models.TestSubmission` (one attempt by one user at one test). -/
structure Submission where
  user : Nat
  test_card : String
  attempt_number : Nat
  score : ℚ
  percentage : ℚ
  reward_points_earned : Nat
  status : SubStatus
  deriving DecidableEq, Repr

/-- `exams.models.Answer`.  Rows are kept in per-submission lists, so the
`submission` foreign key is implicit.  The `question` foreign key carries the
whole row (marks are read off it during scoring). -/
structure Answer where
  question : Question
  selected_option : Option QOption
  is_correct : Bool
  is_marked : Bool
  mark_reason : Option MarkReason
  deriving DecidableEq, Repr

/-- `exams.models.RevisionLog` row. -/
structure RevEntry where
  user : Nat
  question : Nat
  reason : RevReason
  source_test_card : String
  source_submission_attempt : Nat
  deriving DecidableEq, Repr

/-- One element of the `answers` array of a `submit_test` request body. -/
structure AnswerData where
  question_id : Nat
  selected_option : Option QOption
  is_marked : Bool
  deriving DecidableEq, Repr

/-- One element of the `reasons` array of a `save_mark_reasons` request body. -/
structure ReasonItem where
  question_id : Nat
  reason : MarkReason
  deriving DecidableEq, Repr

deriving instance DecidableEq for Except

/-- Errors a handler can surface.  `alreadyCompleted` is the HTTP 400
"already been submitted" response, `notFound` is `get_object_or_404`,
`integrity` is a database `IntegrityError` from a violated
`unique_together` constraint, `multipleObjects` is Django's
`MultipleObjectsReturned` from `.get()`. -/
inductive Err
  | alreadyCompleted | notFound | integrity | multipleObjects
  deriving DecidableEq, Repr

/-- `Answer.save()`: `is_correct` is recomputed from `selected_option`
against the question's `correct_option` before every save. -/
def mkAnswer (q : Question) (sel : Option QOption) (marked : Bool) : Answer :=
  { question := q
    selected_option := sel
    is_correct := match sel with
      | some o => decide (o = q.correct_option)
      | none => false
    is_marked := marked
    mark_reason := none }

/-- `TestSubmissionViewSet._calculate_score`: fold the answer list, adding
`positive_marks` for a correct answer, subtracting `negative_marks` for an
attempted-but-wrong answer, then clamp at 0. -/
def calculate_score (answers_list : List Answer) : ℚ :=
  let total_score := answers_list.foldl
    (fun acc a =>
      if a.is_correct then acc + a.question.positive_marks
      else if a.selected_option.isSome then acc - a.question.negative_marks
      else acc) 0
  if total_score < 0 then 0 else total_score

/-- `TestSubmissionViewSet._calculate_reward_points`. -/
def calculate_reward_points (percentage : ℚ) : Nat :=
  if percentage ≥ 90 then 10
  else if percentage ≥ 85 then 7
  else if percentage ≥ 80 then 5
  else 0

/-- `submission.test_card.questions`: the related-manager queryset
(unordered filter of the global question table). -/
def testQuestions (qbank : List Question) (tid : String) : List Question :=
  qbank.filter (fun q => q.test_card = tid)

/-- `.first()` on the unordered `questions` queryset: Django orders by
primary key, then takes the head. -/
def firstQuestion (qbank : List Question) (tid : String) : Option Question :=
  ((testQuestions qbank tid).insertionSort (fun a b => a.id ≤ b.id)).head?

/-- `RevisionLog.objects.get_or_create(...)` against the table's
`unique_together = (user, question, source_test_card,
source_submission_attempt)` constraint (note: `reason` is NOT part of the
constraint).  Lookup is on all five fields; creation of a row whose
four-field key collides with an existing row of a different reason raises
`IntegrityError`. -/
def revGetOrCreate (rlog : List RevEntry) (e : RevEntry) :
    Except Err (List RevEntry) :=
  if e ∈ rlog then .ok rlog
  else if rlog.any (fun x =>
      x.user = e.user ∧ x.question = e.question ∧
      x.source_test_card = e.source_test_card ∧
      x.source_submission_attempt = e.source_submission_attempt) then
    .error .integrity
  else .ok (rlog ++ [e])

/-- `TestSubmissionViewSet._add_to_revision_log`. -/
def add_to_revision_log (rlog : List RevEntry) (user : Nat) (a : Answer)
    (sub : Submission) (is_marked_flow : Bool) : Except Err (List RevEntry) :=
  let reasons_to_add : List RevReason :=
    if is_marked_flow then
      if a.is_marked ∧ a.mark_reason.isSome then
        match a.mark_reason with
        | some .GUESS => [.MARKED_GUESS]
        | some .TIME => [.MARKED_TIME]
        | some .CONCEPT => [.MARKED_CONCEPT]
        | none => []
      else []
    else
      if ¬ a.is_correct ∧ a.selected_option.isSome then [.INCORRECT] else []
  reasons_to_add.foldlM
    (fun log r => revGetOrCreate log
      { user := user
        question := a.question.id
        reason := r
        source_test_card := sub.test_card
        source_submission_attempt := sub.attempt_number })
    rlog

/-- The per-answer loop of `submit_test`: resolve the question
(`get_object_or_404`), skip it silently when it belongs to a different
test, otherwise create the `Answer` row, log incorrect-and-attempted
answers, and collect marked question ids.  Returns (new answers, marked
question ids, updated revision log). -/
def submitLoop (qbank : List Question) (user : Nat) (sub : Submission) :
    List AnswerData → List RevEntry →
    Except Err (List Answer × List Nat × List RevEntry)
  | [], rlog => .ok ([], [], rlog)
  | d :: rest, rlog =>
    match qbank.find? (fun q => q.id = d.question_id) with
    | none => .error .notFound
    | some q =>
      if q.test_card = sub.test_card then
        let a := mkAnswer q d.selected_option d.is_marked
        match add_to_revision_log rlog user a sub false with
        | .error e => .error e
        | .ok rlog' =>
          match submitLoop qbank user sub rest rlog' with
          | .error e => .error e
          | .ok (as, ms, rlog2) =>
            .ok (a :: as, (if a.is_marked then [a.question.id] else []) ++ ms,
                 rlog2)
      else
        submitLoop qbank user sub rest rlog

/-- Everything `submit_test` commits on success. -/
structure SubmitOutcome where
  submission : Submission
  new_answers : List Answer
  marked_questions : List Nat
  rlog : List RevEntry
  profile_points : Nat
  unlocked : List (Nat × String)
  deriving DecidableEq, Repr

/-- `TestSubmissionViewSet._unlock_next_tests`: for a SUBJECT submission
scoring at least 80 percent, unlock the next 2/3/4 tests of the same
sub-exam by ascending `order`, idempotently via get-or-create on the
`(user, test_card)` unique pair. -/
def unlock_next_tests (tests : List TestCard) (user : Nat) (sub : Submission)
    (current : TestCard) (unlocked : List (Nat × String)) :
    List (Nat × String) :=
  let percentage := sub.percentage
  if percentage < 80 then unlocked
  else
    let unlock_count : Nat :=
      if percentage ≥ 90 then 4
      else if percentage ≥ 85 then 3
      else 2
    let next_tests :=
      ((tests.filter (fun t =>
          t.sub_exam = current.sub_exam ∧ t.test_type = TestType.SUBJECT ∧
          current.order < t.order)).insertionSort
        (fun a b => a.order ≤ b.order)).take unlock_count
    next_tests.foldl
      (fun u t => if (user, t.id) ∈ u then u else u ++ [(user, t.id)])
      unlocked

/-- The tail of `submit_test` after the answer loop: score, percentage,
reward points, submission update, ledger credit, unlocking. -/
def finalizeOutcome (qbank : List Question) (tests : List TestCard)
    (sub : Submission) (test : TestCard) (profile_points : Nat)
    (unlocked : List (Nat × String)) (user : Nat) (new_answers : List Answer)
    (marked : List Nat) (rlog' : List RevEntry) : SubmitOutcome :=
  let total_score := calculate_score new_answers
  let total_questions := (testQuestions qbank test.id).length
  let first_pos : ℚ :=
    match firstQuestion qbank test.id with
    | some q => q.positive_marks
    | none => 0
  let percentage : ℚ :=
    if 0 < total_questions then
      total_score / (total_questions * first_pos) * 100
    else 0
  let reward_points : Nat :=
    if test.test_type = TestType.SUBJECT then
      calculate_reward_points percentage
    else if test.test_type = TestType.CHALLENGE ∨
            test.test_type = TestType.QUIZ then
      test.reward_points
    else 0
  let sub' : Submission :=
    { sub with
      score := total_score
      percentage := percentage
      reward_points_earned := reward_points
      status := SubStatus.completed }
  let unlocked' :=
    if test.test_type = TestType.SUBJECT then
      unlock_next_tests tests user sub' test unlocked
    else unlocked
  { submission := sub'
    new_answers := new_answers
    marked_questions := marked
    rlog := rlog'
    profile_points := profile_points + reward_points
    unlocked := unlocked' }

/-- `TestSubmissionViewSet.submit_test`.  `test` is `submission.test_card`
(the row the `sub.test_card` id refers to); `profile_points` is the user's
reward-point ledger balance; `unlocked` is the `UnlockedTestCard` table as
(user, test id) pairs. -/
def submit_test (qbank : List Question) (tests : List TestCard) (user : Nat)
    (sub : Submission) (test : TestCard) (answers_data : List AnswerData)
    (rlog : List RevEntry) (profile_points : Nat)
    (unlocked : List (Nat × String)) : Except Err SubmitOutcome :=
  if sub.status = SubStatus.completed then .error .alreadyCompleted
  else
    match submitLoop qbank user sub answers_data rlog with
    | .error e => .error e
    | .ok (new_answers, marked, rlog') =>
      .ok (finalizeOutcome qbank tests sub test profile_points unlocked user
        new_answers marked rlog')

/-- Errors of `start_test` (all HTTP 403 responses). -/
inductive StartErr
  | forbiddenLocked | forbiddenNotPurchased | forbiddenAlreadyAttempted
  deriving DecidableEq, Repr

/-- Everything `start_test` commits on success. -/
structure StartOutcome where
  submission : Submission
  submissions : List Submission
  unlocked : List (Nat × String)
  deriving DecidableEq, Repr

/-- `TestSubmissionViewSet._is_subject_test_unlocked_helper`: the first
test of the sub-exam's SUBJECT sequence (by `order`) is always unlocked,
any other needs an `UnlockedTestCard` row.  Django compares model
instances by primary key. -/
def is_subject_test_unlocked_helper (tests : List TestCard)
    (unlocked : List (Nat × String)) (user : Nat) (test : TestCard) : Bool :=
  let all_tests := ((tests.filter (fun t =>
      t.sub_exam = test.sub_exam ∧ t.test_type = TestType.SUBJECT)).insertionSort
    (fun a b => a.order ≤ b.order))
  match all_tests.head? with
  | some t0 => if t0.id = test.id then true
               else decide ((user, test.id) ∈ unlocked)
  | none => decide ((user, test.id) ∈ unlocked)

/-- The tail of `start_test` shared by all branches: next attempt number is
the count of prior submissions for (user, test) plus one; a fresh
IN_PROGRESS submission row is inserted. -/
def startCreate (subs : List Submission) (unlocked : List (Nat × String))
    (user : Nat) (test : TestCard) : StartOutcome :=
  let attempt_number :=
    (subs.filter (fun s => s.user = user ∧ s.test_card = test.id)).length + 1
  let s : Submission :=
    { user := user
      test_card := test.id
      attempt_number := attempt_number
      score := 0
      percentage := 0
      reward_points_earned := 0
      status := SubStatus.in_progress }
  { submission := s, submissions := subs ++ [s], unlocked := unlocked }

/-- `TestSubmissionViewSet.start_test`.  `subs` is the `TestSubmission`
table, `unlocked` the `UnlockedTestCard` table as (user, test id) pairs. -/
def start_test (tests : List TestCard) (subs : List Submission)
    (unlocked : List (Nat × String)) (user : Nat) (test : TestCard) :
    Except StartErr StartOutcome :=
  if test.test_type = TestType.SUBJECT then
    if ¬ is_subject_test_unlocked_helper tests unlocked user test then
      .error .forbiddenLocked
    else .ok (startCreate subs unlocked user test)
  else if test.test_type = TestType.FULL then
    if ¬ ((user, test.id) ∈ unlocked) then .error .forbiddenNotPurchased
    else
      .ok (startCreate subs
        (unlocked.filter (fun p => ¬ (p.1 = user ∧ p.2 = test.id)))
        user test)
  else if test.test_type = TestType.QUIZ then
    if subs.any (fun s => s.user = user ∧ s.test_card = test.id) then
      .error .forbiddenAlreadyAttempted
    else .ok (startCreate subs unlocked user test)
  else .ok (startCreate subs unlocked user test)

/-- `answer.mark_reason = reason_key; answer.save()` — the row found by
`.get(submission=submission, question_id=question_id)` is updated in
place (exactly the rows with that question id are touched; `.save()` also
recomputes `is_correct`, which does not change since `selected_option`
is unchanged). -/
def updateAnswerReason (answers : List Answer) (qid : Nat) (r : MarkReason) :
    List Answer :=
  answers.map (fun a =>
    if a.question.id = qid then { a with mark_reason := some r } else a)

/-- `TestSubmissionViewSet.save_mark_reasons`: per item, `.get` the answer
row of this submission for the question (`DoesNotExist` → skip;
several rows → `MultipleObjectsReturned`), set its `mark_reason`, and
add the translated reason to the revision log. -/
def save_mark_reasons (user : Nat) (sub : Submission) :
    List ReasonItem → List Answer → List RevEntry →
    Except Err (List Answer × List RevEntry)
  | [], answers, rlog => .ok (answers, rlog)
  | item :: rest, answers, rlog =>
    match answers.filter (fun a => a.question.id = item.question_id) with
    | [] => save_mark_reasons user sub rest answers rlog
    | [a] =>
      let a' : Answer := { a with mark_reason := some item.reason }
      match add_to_revision_log rlog user a' sub true with
      | .error e => .error e
      | .ok rlog' =>
        save_mark_reasons user sub rest
          (updateAnswerReason answers item.question_id item.reason) rlog'
    | _ => .error .multipleObjects

/-- The reason translation of §4.3 of the spec:
Guess → MarkedGuess, TimePressure → MarkedTime, ConceptError → MarkedConcept. -/
def translateReason : MarkReason → RevReason
  | .GUESS => .MARKED_GUESS
  | .TIME => .MARKED_TIME
  | .CONCEPT => .MARKED_CONCEPT

/-- Spec-side per-answer score contribution: correct → +positive_marks,
incorrect-but-attempted (selected_option non-null) → −negative_marks,
skipped → 0, judged directly against the question's correct option. -/
def specAnswerMarks (a : Answer) : ℚ :=
  match a.selected_option with
  | none => 0
  | some o =>
      if o = a.question.correct_option then a.question.positive_marks
      else -a.question.negative_marks

/-- Spec-side score of a submission: sum of the per-answer contributions,
clamped to be nonnegative. -/
def specScore (answers : List Answer) : ℚ :=
  max 0 (answers.map specAnswerMarks).sum

/-- `is_correct` as stored on a row is the value `Answer.save()` computes
from `selected_option` and the question's `correct_option`. -/
def Answer.wellFormed (a : Answer) : Prop :=
  a.is_correct = (match a.selected_option with
    | some o => decide (o = a.question.correct_option)
    | none => false)

lemma mkAnswer_wellFormed (q : Question) (sel : Option QOption) (m : Bool) :
    (mkAnswer q sel m).wellFormed := rfl

lemma submit_test_ok_dest
    {qbank : List Question} {tests : List TestCard} {user : Nat}
    {sub : Submission} {test : TestCard} {data : List AnswerData}
    {rlog : List RevEntry} {pts : Nat} {unlocked : List (Nat × String)}
    {out : SubmitOutcome}
    (hok : submit_test qbank tests user sub test data rlog pts unlocked
      = .ok out) :
    sub.status ≠ SubStatus.completed ∧
    ∃ na ms rl', submitLoop qbank user sub data rlog = .ok (na, ms, rl') ∧
      out = finalizeOutcome qbank tests sub test pts unlocked user na ms rl' := by
  unfold submit_test at hok
  split at hok
  · exact absurd hok (by simp)
  next hst =>
    refine ⟨hst, ?_⟩
    cases hloop : submitLoop qbank user sub data rlog with
    | error e => rw [hloop] at hok; simp at hok
    | ok triple =>
      obtain ⟨na, ms, rl'⟩ := triple
      rw [hloop] at hok
      simp only [Except.ok.injEq] at hok
      exact ⟨na, ms, rl', rfl, hok.symm⟩

lemma calculate_score_foldl (as : List Answer) (init : ℚ) :
    as.foldl (fun acc a =>
      if a.is_correct then acc + a.question.positive_marks
      else if a.selected_option.isSome then acc - a.question.negative_marks
      else acc) init
    = init + (as.map (fun a =>
        if a.is_correct then a.question.positive_marks
        else if a.selected_option.isSome then -a.question.negative_marks
        else 0)).sum := by
  induction as generalizing init with
  | nil => simp
  | cons a as ih =>
    simp only [List.foldl_cons, List.map_cons, List.sum_cons, ih]
    split_ifs <;> ring

lemma wellFormed_contribution (a : Answer) (h : a.wellFormed) :
    (if a.is_correct then a.question.positive_marks
     else if a.selected_option.isSome then -a.question.negative_marks
     else 0) = specAnswerMarks a := by
  unfold Answer.wellFormed at h
  unfold specAnswerMarks
  cases hsel : a.selected_option with
  | none => rw [hsel] at h; simp [h]
  | some o =>
    rw [hsel] at h
    by_cases ho : o = a.question.correct_option <;> simp [h, ho]

lemma calculate_score_eq_specScore (as : List Answer)
    (h : ∀ a ∈ as, a.wellFormed) : calculate_score as = specScore as := by
  unfold calculate_score specScore
  rw [calculate_score_foldl, zero_add]
  rw [congrArg List.sum
    (List.map_congr_left (fun a ha => wellFormed_contribution a (h a ha)))]
  rcases lt_or_le ((as.map specAnswerMarks).sum) 0 with hlt | hle
  · simp only [if_pos hlt]
    exact (max_eq_left hlt.le).symm
  · simp only [if_neg (not_lt.mpr hle)]
    exact (max_eq_right hle).symm

lemma submitLoop_wf {qbank : List Question} {user : Nat} {sub : Submission}
    {data : List AnswerData} {rlog : List RevEntry} {na : List Answer}
    {ms : List Nat} {rl' : List RevEntry}
    (h : submitLoop qbank user sub data rlog = .ok (na, ms, rl')) :
    ∀ a ∈ na, a.wellFormed := by
  induction data generalizing rlog na ms rl' with
  | nil =>
    unfold submitLoop at h
    simp only [Except.ok.injEq, Prod.mk.injEq] at h
    obtain ⟨h1, -, -⟩ := h
    subst h1
    simp
  | cons d rest ih =>
    simp only [submitLoop] at h
    split at h
    · simp at h
    next q hf =>
      split at h
      · split at h
        · simp at h
        next rlog1 hadd =>
          cases hrec : submitLoop qbank user sub rest rlog1 with
          | error e => rw [hrec] at h; simp at h
          | ok trip =>
            obtain ⟨as1, ms1, rl1⟩ := trip
            rw [hrec] at h
            simp only [Except.ok.injEq, Prod.mk.injEq] at h
            obtain ⟨h1, -, -⟩ := h
            subst h1
            intro a ha
            rcases List.mem_cons.mp ha with h2 | h2
            · subst h2; exact mkAnswer_wellFormed _ _ _
            · exact ih hrec a h2
      · exact ih h

/-- C1: for every finalize (`submit_test`) of an InProgress submission, the
stored score is the sum over the created `Answer` rows of +positive_marks
for each correct answer, −negative_marks for each incorrect-but-attempted
answer (selected_option non-null) and 0 for each skipped answer, clamped
at ≥ 0; and the stored percentage is score / (question count of the test ×
positive marks of the test's first question) × 100, or 0 when the test has
no questions. -/
theorem C1_finalize_score_and_percentage
    (qbank : List Question) (tests : List TestCard) (user : Nat)
    (sub : Submission) (test : TestCard) (data : List AnswerData)
    (rlog : List RevEntry) (pts : Nat) (unlocked : List (Nat × String))
    (out : SubmitOutcome)
    (hok : submit_test qbank tests user sub test data rlog pts unlocked
      = .ok out) :
    out.submission.score = specScore out.new_answers ∧
    out.submission.percentage =
      (if 0 < (testQuestions qbank test.id).length then
        out.submission.score /
          (((testQuestions qbank test.id).length : ℚ) *
            (match firstQuestion qbank test.id with
             | some q => q.positive_marks
             | none => 0)) * 100
      else 0) := by
  obtain ⟨-, na, ms, rl', hloop, hout⟩ := submit_test_ok_dest hok
  subst hout
  have hscore : calculate_score na = specScore na :=
    calculate_score_eq_specScore na (submitLoop_wf hloop)
  exact ⟨by simpa [finalizeOutcome] using hscore, by simp [finalizeOutcome]⟩

def c1Qbank : List Question :=
  [⟨1, "t1", QOption.A, 1, 1/4⟩, ⟨2, "t1", QOption.B, 1, 1/4⟩]

def c1Sub : Submission := ⟨1, "t1", 1, 0, 0, 0, SubStatus.in_progress⟩

def c1Test : TestCard := ⟨"t1", "s1", TestType.SUBJECT, 1, 0, 0, true⟩

def c1Data : List AnswerData :=
  [⟨1, some QOption.A, false⟩, ⟨2, some QOption.A, false⟩]

/-- The outcome `submit_test` commits on the C1 witness input: one correct
and one wrong attempt at a two-question test scores 1 − 1/4 = 3/4 and
37.5 percent. -/
def c1Out : SubmitOutcome :=
  { submission := ⟨1, "t1", 1, 3/4, 75/2, 0, SubStatus.completed⟩
    new_answers :=
      [⟨⟨1, "t1", QOption.A, 1, 1/4⟩, some QOption.A, true, false, none⟩,
       ⟨⟨2, "t1", QOption.B, 1, 1/4⟩, some QOption.A, false, false, none⟩]
    marked_questions := []
    rlog := [⟨1, 2, RevReason.INCORRECT, "t1", 1⟩]
    profile_points := 0
    unlocked := [] }

theorem C1_witness :
    submit_test c1Qbank [] 1 c1Sub c1Test c1Data [] 0 [] = .ok c1Out ∧
    (c1Out.submission.score = specScore c1Out.new_answers ∧
     c1Out.submission.percentage =
       (if 0 < (testQuestions c1Qbank c1Test.id).length then
         c1Out.submission.score /
           (((testQuestions c1Qbank c1Test.id).length : ℚ) *
             (match firstQuestion c1Qbank c1Test.id with
              | some q => q.positive_marks
              | none => 0)) * 100
       else 0)) := by
  have h : submit_test c1Qbank [] 1 c1Sub c1Test c1Data [] 0 [] = .ok c1Out := by
    norm_num +decide [submit_test, submitLoop, finalizeOutcome,
      add_to_revision_log, revGetOrCreate, mkAnswer, calculate_score,
      calculate_reward_points, testQuestions, firstQuestion, unlock_next_tests,
      c1Qbank, c1Sub, c1Test, c1Data, c1Out, List.insertionSort,
      List.orderedInsert, List.find?, List.foldlM, pure, Except.pure, bind,
      Except.bind]
  exact ⟨h,
    C1_finalize_score_and_percentage c1Qbank [] 1 c1Sub c1Test c1Data [] 0 []
      c1Out h⟩

/-- C5: a second `submit_test` on an already-Completed submission is
rejected with the already-submitted (conflict) error; since the handler
returns before the transaction opens, no answers, score change, ledger
credit, unlock or revision entry can be committed (an error result carries
no new state). -/
theorem C5_double_finalize_rejected
    (qbank : List Question) (tests : List TestCard) (user : Nat)
    (sub : Submission) (test : TestCard) (data : List AnswerData)
    (rlog : List RevEntry) (pts : Nat) (unlocked : List (Nat × String))
    (hc : sub.status = SubStatus.completed) :
    submit_test qbank tests user sub test data rlog pts unlocked =
      .error .alreadyCompleted := by
  unfold submit_test
  rw [if_pos hc]

theorem C5_witness :
    (⟨1, "t5", 1, 0, 0, 0, SubStatus.completed⟩ : Submission).status =
      SubStatus.completed ∧
    submit_test [] [] 1 ⟨1, "t5", 1, 0, 0, 0, SubStatus.completed⟩
      ⟨"t5", "s1", TestType.SUBJECT, 1, 0, 0, true⟩ [] [] 0 [] =
      .error .alreadyCompleted :=
  ⟨rfl, C5_double_finalize_rejected [] [] 1 _ _ [] [] 0 [] rfl⟩

/-- Reward rule as the spec states it: SubjectWise → tiered by percentage
(≥90→10, ≥85→7, ≥80→5, else 0); Challenge/WeeklyQuiz → the test's
configured `reward_points`; FullLength → 0. -/
def specRewardPoints (t : TestCard) (percentage : ℚ) : Nat :=
  match t.test_type with
  | TestType.SUBJECT =>
      if percentage ≥ 90 then 10
      else if percentage ≥ 85 then 7
      else if percentage ≥ 80 then 5
      else 0
  | TestType.CHALLENGE => t.reward_points
  | TestType.QUIZ => t.reward_points
  | TestType.FULL => 0

/-- C3: on finalize, `reward_points_earned` follows the reward rule
(SubjectWise tiered / Challenge and WeeklyQuiz fixed / FullLength 0) on
the stored percentage, the ledger is credited by exactly that amount, and
the SubjectWise tiers are threshold-exact at 90 / 89.9 / 85 / 84.9 / 80 /
79.9 percent. -/
theorem C3_reward_points_and_ledger :
    (∀ (qbank : List Question) (tests : List TestCard) (user : Nat)
      (sub : Submission) (test : TestCard) (data : List AnswerData)
      (rlog : List RevEntry) (pts : Nat) (unlocked : List (Nat × String))
      (out : SubmitOutcome),
      submit_test qbank tests user sub test data rlog pts unlocked = .ok out →
      out.submission.reward_points_earned =
        specRewardPoints test out.submission.percentage ∧
      out.profile_points = pts + out.submission.reward_points_earned) ∧
    calculate_reward_points 90 = 10 ∧ calculate_reward_points (899/10) = 7 ∧
    calculate_reward_points 85 = 7 ∧ calculate_reward_points (849/10) = 5 ∧
    calculate_reward_points 80 = 5 ∧ calculate_reward_points (799/10) = 0 := by
  refine ⟨?_, ?_, ?_, ?_, ?_, ?_, ?_⟩
  · intro qbank tests user sub test data rlog pts unlocked out hok
    obtain ⟨-, na, ms, rl', hloop, hout⟩ := submit_test_ok_dest hok
    subst hout
    cases htt : test.test_type <;>
      simp [finalizeOutcome, specRewardPoints, calculate_reward_points, htt]
  all_goals norm_num [calculate_reward_points]

def c3Qbank : List Question := [⟨3, "t3", QOption.A, 1, 1/4⟩]

def c3Sub : Submission := ⟨1, "t3", 1, 0, 0, 0, SubStatus.in_progress⟩

def c3Test : TestCard := ⟨"t3", "s1", TestType.SUBJECT, 1, 0, 0, true⟩

def c3Data : List AnswerData := [⟨3, some QOption.A, false⟩]

/-- Outcome of the C3 witness run: a perfect SubjectWise submission scores
100 percent, earns the 10-point tier and credits the ledger 5 → 15. -/
def c3Out : SubmitOutcome :=
  { submission := ⟨1, "t3", 1, 1, 100, 10, SubStatus.completed⟩
    new_answers :=
      [⟨⟨3, "t3", QOption.A, 1, 1/4⟩, some QOption.A, true, false, none⟩]
    marked_questions := []
    rlog := []
    profile_points := 15
    unlocked := [] }

theorem C3_witness :
    submit_test c3Qbank [] 1 c3Sub c3Test c3Data [] 5 [] = .ok c3Out ∧
    c3Out.submission.reward_points_earned =
      specRewardPoints c3Test c3Out.submission.percentage ∧
    c3Out.profile_points = 5 + c3Out.submission.reward_points_earned := by
  have h : submit_test c3Qbank [] 1 c3Sub c3Test c3Data [] 5 [] = .ok c3Out := by
    norm_num +decide [submit_test, submitLoop, finalizeOutcome,
      add_to_revision_log, revGetOrCreate, mkAnswer, calculate_score,
      calculate_reward_points, testQuestions, firstQuestion, unlock_next_tests,
      c3Qbank, c3Sub, c3Test, c3Data, c3Out, List.insertionSort,
      List.orderedInsert, List.find?, List.foldlM, pure, Except.pure, bind,
      Except.bind]
  exact ⟨h, C3_reward_points_and_ledger.1 c3Qbank [] 1 c3Sub c3Test c3Data []
    5 [] c3Out h⟩

def c2Qbank : List Question := [⟨1, "t2", QOption.A, 1, 1/4⟩]

def c2Sub : Submission := ⟨1, "t2", 1, 0, 0, 0, SubStatus.in_progress⟩

def c2Test : TestCard := ⟨"t2", "s1", TestType.FULL, 1, 0, 0, true⟩

/-- The same (and only) question of the test answered correctly twice in
one batch. -/
def c2Data : List AnswerData :=
  [⟨1, some QOption.A, false⟩, ⟨1, some QOption.A, false⟩]

/-- Outcome of the C2 counterexample run: two correct answer rows for the
single question give score 2 and percentage 2 / (1 × 1) × 100 = 200. -/
def c2Out : SubmitOutcome :=
  { submission := ⟨1, "t2", 1, 2, 200, 0, SubStatus.completed⟩
    new_answers :=
      [⟨⟨1, "t2", QOption.A, 1, 1/4⟩, some QOption.A, true, false, none⟩,
       ⟨⟨1, "t2", QOption.A, 1, 1/4⟩, some QOption.A, true, false, none⟩]
    marked_questions := []
    rlog := []
    profile_points := 0
    unlocked := [] }

/-- C2 fails on the code: a completed submission whose batch repeats a
question id is stored with percentage 200 > 100. -/
theorem C2_counterexample :
    submit_test c2Qbank [] 1 c2Sub c2Test c2Data [] 0 [] = .ok c2Out ∧
    ¬ c2Out.submission.percentage ≤ 100 := by
  constructor
  · norm_num +decide [submit_test, submitLoop, finalizeOutcome,
      add_to_revision_log, revGetOrCreate, mkAnswer, calculate_score,
      calculate_reward_points, testQuestions, firstQuestion, unlock_next_tests,
      c2Qbank, c2Sub, c2Test, c2Data, c2Out, List.insertionSort,
      List.orderedInsert, List.find?, List.foldlM, pure, Except.pure, bind,
      Except.bind]
  · norm_num [c2Out]

lemma calculate_score_nonneg (as : List Answer) : 0 ≤ calculate_score as := by
  simp only [calculate_score]
  split
  · exact le_refl 0
  next h => exact le_of_not_lt h

lemma firstQuestion_mem {qbank : List Question} {tid : String} {q : Question}
    (h : firstQuestion qbank tid = some q) : q ∈ qbank := by
  unfold firstQuestion at h
  have h1 := List.mem_of_mem_head? (Option.mem_def.mpr h)
  rw [List.mem_insertionSort] at h1
  exact (List.mem_filter.mp h1).1

/-- C2 as the code satisfies it: the stored score and the stored
percentage are nonnegative (provided no question carries negative
positive_marks), but the percentage is not bounded by 100. -/
theorem C2_amended_nonneg
    (qbank : List Question) (tests : List TestCard) (user : Nat)
    (sub : Submission) (test : TestCard) (data : List AnswerData)
    (rlog : List RevEntry) (pts : Nat) (unlocked : List (Nat × String))
    (out : SubmitOutcome)
    (hpos : ∀ q ∈ qbank, 0 ≤ q.positive_marks)
    (hok : submit_test qbank tests user sub test data rlog pts unlocked
      = .ok out) :
    0 ≤ out.submission.score ∧ 0 ≤ out.submission.percentage := by
  obtain ⟨-, na, ms, rl', hloop, hout⟩ := submit_test_ok_dest hok
  subst hout
  constructor
  · simpa [finalizeOutcome] using calculate_score_nonneg na
  · simp only [finalizeOutcome]
    split
    · refine mul_nonneg (div_nonneg (calculate_score_nonneg na) ?_) (by norm_num)
      refine mul_nonneg (Nat.cast_nonneg _) ?_
      cases hfq : firstQuestion qbank test.id with
      | none => simp
      | some q => simpa using hpos q (firstQuestion_mem hfq)
    · exact le_refl 0

theorem C2_witness :
    0 ≤ c2Out.submission.score ∧ 0 ≤ c2Out.submission.percentage := by
  have h : submit_test c2Qbank [] 1 c2Sub c2Test c2Data [] 0 [] = .ok c2Out := by
    norm_num +decide [submit_test, submitLoop, finalizeOutcome,
      add_to_revision_log, revGetOrCreate, mkAnswer, calculate_score,
      calculate_reward_points, testQuestions, firstQuestion, unlock_next_tests,
      c2Qbank, c2Sub, c2Test, c2Data, c2Out, List.insertionSort,
      List.orderedInsert, List.find?, List.foldlM, pure, Except.pure, bind,
      Except.bind]
  exact C2_amended_nonneg c2Qbank [] 1 c2Sub c2Test c2Data [] 0 [] c2Out
    (by norm_num [c2Qbank]) h

/-- The spec's unlock fan-out: N = 4 (≥90), 3 (≥85), 2 (≥80), else 0. -/
def specUnlockTier (percentage : ℚ) : Nat :=
  if percentage ≥ 90 then 4
  else if percentage ≥ 85 then 3
  else if percentage ≥ 80 then 2
  else 0

/-- The SubjectWise tests of the same sub-exam strictly after `current`
in the `order` sequence (in stored order). -/
def eligibleNext (tests : List TestCard) (current : TestCard) : List TestCard :=
  tests.filter (fun t =>
    t.sub_exam = current.sub_exam ∧ t.test_type = TestType.SUBJECT ∧
    current.order < t.order)

lemma unlock_foldl (user : Nat) :
    ∀ (L : List TestCard) (u : List (Nat × String)),
    (L.map TestCard.id).Nodup →
    L.foldl (fun u t => if (user, t.id) ∈ u then u else u ++ [(user, t.id)]) u =
      u ++ (L.filter (fun t => (user, t.id) ∉ u)).map (fun t => (user, t.id))
  | [], u, _ => by simp
  | t :: L, u, hnd => by
    simp only [List.map_cons, List.nodup_cons] at hnd
    obtain ⟨hid, hnd⟩ := hnd
    by_cases hmem : (user, t.id) ∈ u
    · rw [List.foldl_cons, if_pos hmem, unlock_foldl user L u hnd]
      congr 1
      simp [List.filter_cons, hmem]
    · rw [List.foldl_cons, if_neg hmem,
        unlock_foldl user L (u ++ [(user, t.id)]) hnd]
      have hfil : L.filter (fun x => decide ((user, x.id) ∉ u ++ [(user, t.id)]))
          = L.filter (fun x => decide ((user, x.id) ∉ u)) := by
        apply List.filter_congr
        intro x hx
        have hxid : x.id ≠ t.id := fun hcon =>
          hid (hcon ▸ List.mem_map_of_mem TestCard.id hx)
        exact decide_eq_decide.mpr
          (by simp [List.mem_append, Prod.mk.injEq, hxid])
      rw [hfil]
      simp [List.filter_cons, hmem, List.append_assoc]

/-- C4: finalizing a SubjectWise submission unlocks exactly the next N
SubjectWise tests of the same sub-exam in ascending `order` after the
submitted test — N tiered 4/3/2/0 by percentage — appending an unlock
record only for tests not already unlocked (get-or-create no-op, never an
error). -/
theorem C4_unlock_fanout
    (tests : List TestCard) (user : Nat) (sub : Submission)
    (current : TestCard) (unlocked : List (Nat × String))
    (hsorted : tests.Pairwise (fun a b => a.order ≤ b.order))
    (hids : (tests.map TestCard.id).Nodup) :
    unlock_next_tests tests user sub current unlocked =
      unlocked ++
        (((eligibleNext tests current).take
            (specUnlockTier sub.percentage)).filter
          (fun t => (user, t.id) ∉ unlocked)).map (fun t => (user, t.id)) := by
  have hsortEq :
      (tests.filter (fun t =>
        t.sub_exam = current.sub_exam ∧ t.test_type = TestType.SUBJECT ∧
        current.order < t.order)).insertionSort (fun a b => a.order ≤ b.order)
      = eligibleNext tests current :=
    List.Sorted.insertionSort_eq (List.Pairwise.filter _ hsorted)
  have hndtake : ∀ n : Nat,
      (((eligibleNext tests current).take n).map TestCard.id).Nodup := by
    intro n
    rw [List.map_take]
    exact (hids.sublist (List.Sublist.map TestCard.id
      (List.filter_sublist _))).sublist (List.take_sublist _ _)
  by_cases h80 : sub.percentage < 80
  · have h90 : ¬ sub.percentage ≥ 90 := by linarith
    have h85 : ¬ sub.percentage ≥ 85 := by linarith
    have h80' : ¬ sub.percentage ≥ 80 := by linarith
    simp only [unlock_next_tests, specUnlockTier,
      if_pos h80, if_neg h90, if_neg h85, if_neg h80']
    simp
  · have hcount :
        (if sub.percentage ≥ 90 then (4 : Nat)
         else if sub.percentage ≥ 85 then 3 else 2)
        = specUnlockTier sub.percentage := by
      unfold specUnlockTier
      split_ifs <;> first | rfl | linarith
    simp only [unlock_next_tests, if_neg h80]
    rw [hcount, hsortEq, unlock_foldl user _ unlocked
      (hndtake (specUnlockTier sub.percentage))]

def c4Tests : List TestCard :=
  [⟨"w1", "s", TestType.SUBJECT, 1, 0, 0, true⟩,
   ⟨"w2", "s", TestType.SUBJECT, 2, 0, 0, true⟩,
   ⟨"w3", "s", TestType.SUBJECT, 3, 0, 0, true⟩,
   ⟨"w4", "s", TestType.SUBJECT, 4, 0, 0, true⟩,
   ⟨"w5", "s", TestType.SUBJECT, 5, 0, 0, true⟩]

def c4Cur : TestCard := ⟨"w1", "s", TestType.SUBJECT, 1, 0, 0, true⟩

def c4Sub : Submission := ⟨1, "w1", 1, 23, 92, 10, SubStatus.completed⟩

theorem C4_witness :
    unlock_next_tests c4Tests 1 c4Sub c4Cur [(1, "w3")] =
      [(1, "w3")] ++
        (((eligibleNext c4Tests c4Cur).take
            (specUnlockTier c4Sub.percentage)).filter
          (fun t => (1, t.id) ∉ [(1, "w3")])).map (fun t => (1, t.id)) :=
  C4_unlock_fanout c4Tests 1 c4Sub c4Cur [(1, "w3")]
    (by simp [c4Tests]) (by simp [c4Tests])

/-- C6: `start_test` on a FullLength test succeeds only when an unlock
record for (user, test) exists, a successful start deletes exactly one
record for that pair (the pair is unique in the table), and a subsequent
`start_test` from the resulting state without a new purchase is rejected
with Forbidden. -/
theorem C6_full_length_consumes_unlock
    (tests : List TestCard) (subs : List Submission)
    (unlocked : List (Nat × String)) (user : Nat) (test : TestCard)
    (hFull : test.test_type = TestType.FULL)
    (hnd : unlocked.Nodup)
    (out : StartOutcome)
    (hok : start_test tests subs unlocked user test = .ok out) :
    (user, test.id) ∈ unlocked ∧
    out.unlocked.length + 1 = unlocked.length ∧
    (user, test.id) ∉ out.unlocked ∧
    start_test tests out.submissions out.unlocked user test =
      .error .forbiddenNotPurchased := by
  have hns : ¬ test.test_type = TestType.SUBJECT := by simp [hFull]
  unfold start_test at hok
  rw [if_neg hns, if_pos hFull] at hok
  by_cases hmem : (user, test.id) ∈ unlocked
  · rw [if_neg (not_not_intro hmem)] at hok
    simp only [Except.ok.injEq] at hok
    have hunl : out.unlocked =
        unlocked.filter (fun p => p != (user, test.id)) := by
      rw [← hok]
      simp only [startCreate]
      refine List.filter_congr (fun p _ => ?_)
      by_cases hp : p = (user, test.id)
      · subst hp; simp
      · have h2 : (p != (user, test.id)) = true := by simp [hp]
        rw [h2, decide_eq_true_eq, Prod.ext_iff] at *
        exact hp
    have herase : out.unlocked = unlocked.erase (user, test.id) := by
      rw [hunl, ← List.Nodup.erase_eq_filter hnd]
    have hlen : out.unlocked.length + 1 = unlocked.length := by
      rw [herase, List.length_erase_of_mem hmem]
      have : 0 < unlocked.length := List.length_pos_of_mem hmem
      omega
    have hnotmem : (user, test.id) ∉ out.unlocked := by
      rw [hunl]
      intro hcon
      simpa using (List.mem_filter.mp hcon).2
    refine ⟨hmem, hlen, hnotmem, ?_⟩
    unfold start_test
    rw [if_neg hns, if_pos hFull, if_pos hnotmem]
  · rw [if_pos hmem] at hok
    simp at hok

def c6Test : TestCard := ⟨"f1", "s", TestType.FULL, 1, 15, 0, true⟩

/-- State committed by the C6 witness start: the unlock record consumed,
one IN_PROGRESS submission created. -/
def c6Out : StartOutcome :=
  ⟨⟨1, "f1", 1, 0, 0, 0, SubStatus.in_progress⟩,
   [⟨1, "f1", 1, 0, 0, 0, SubStatus.in_progress⟩], []⟩

theorem C6_witness :
    (1, "f1") ∈ [((1 : Nat), "f1")] ∧
    c6Out.unlocked.length + 1 = [((1 : Nat), "f1")].length ∧
    (1, "f1") ∉ c6Out.unlocked ∧
    start_test [] c6Out.submissions c6Out.unlocked 1 c6Test =
      .error .forbiddenNotPurchased := by
  have h : start_test [] [] [((1 : Nat), "f1")] 1 c6Test = .ok c6Out := by
    norm_num +decide [start_test, startCreate, is_subject_test_unlocked_helper,
      c6Test, c6Out, List.insertionSort, List.orderedInsert]
  exact C6_full_length_consumes_unlock [] [] [((1 : Nat), "f1")] 1 c6Test rfl
    (by simp) c6Out h

def c7Qbank : List Question := [⟨7, "t7", QOption.A, 1, 1/4⟩]

def c7Sub : Submission := ⟨1, "t7", 1, 0, 0, 0, SubStatus.in_progress⟩

def c7Test : TestCard := ⟨"t7", "s1", TestType.FULL, 1, 0, 0, true⟩

/-- One wrong, marked-for-review answer. -/
def c7Data : List AnswerData := [⟨7, some QOption.B, true⟩]

/-- Outcome of the C7 submit: the wrong attempt is auto-logged with
reason Incorrect for (user 1, question 7, test t7, attempt 1). -/
def c7Out : SubmitOutcome :=
  { submission := ⟨1, "t7", 1, 0, 0, 0, SubStatus.completed⟩
    new_answers :=
      [⟨⟨7, "t7", QOption.A, 1, 1/4⟩, some QOption.B, false, true, none⟩]
    marked_questions := [7]
    rlog := [⟨1, 7, RevReason.INCORRECT, "t7", 1⟩]
    profile_points := 0
    unlocked := [] }

/-- C7 is right about the intent but the code violates it: after
`submit_test` auto-logs the Incorrect entry, the follow-up
`save_mark_reasons` for the same question and attempt hits the
`RevisionLog` `unique_together` constraint — which omits `reason`,
contradicting the model's own comment — and raises `IntegrityError`
instead of succeeding idempotently. -/
theorem C7_mark_reason_integrity_error :
    submit_test c7Qbank [] 1 c7Sub c7Test c7Data [] 0 [] = .ok c7Out ∧
    save_mark_reasons 1 c7Out.submission [⟨7, MarkReason.GUESS⟩]
      c7Out.new_answers c7Out.rlog = .error .integrity := by
  constructor
  · norm_num +decide [submit_test, submitLoop, finalizeOutcome,
      add_to_revision_log, revGetOrCreate, mkAnswer, calculate_score,
      calculate_reward_points, testQuestions, firstQuestion, unlock_next_tests,
      c7Qbank, c7Sub, c7Test, c7Data, c7Out, List.insertionSort,
      List.orderedInsert, List.find?, List.foldlM, pure, Except.pure, bind,
      Except.bind]
  · norm_num +decide [save_mark_reasons, updateAnswerReason,
      add_to_revision_log, revGetOrCreate, c7Out, List.filter, List.foldlM,
      pure, Except.pure, bind, Except.bind]

lemma updateAnswerReason_map_id (answers : List Answer) (qid : Nat)
    (r : MarkReason) :
    (updateAnswerReason answers qid r).map (fun a => a.question.id) =
      answers.map (fun a => a.question.id) := by
  unfold updateAnswerReason
  rw [List.map_map]
  apply List.map_congr_left
  intro a _
  by_cases h : a.question.id = qid <;> simp [h]

lemma revGetOrCreate_ok {rlog rlog' : List RevEntry} {e : RevEntry}
    (h : revGetOrCreate rlog e = .ok rlog') :
    e ∈ rlog' ∧ ∀ x ∈ rlog, x ∈ rlog' := by
  unfold revGetOrCreate at h
  split at h
  · next hmem =>
    simp only [Except.ok.injEq] at h
    subst h
    exact ⟨hmem, fun x hx => hx⟩
  · split at h
    · simp at h
    · simp only [Except.ok.injEq] at h
      subst h
      exact ⟨by simp, fun x hx => by simp [hx]⟩

lemma rev_foldlM_mono {user aq : Nat} {tc : String} {att : Nat} :
    ∀ (L : List RevReason) (rlog rlog' : List RevEntry),
    L.foldlM (fun log r =>
      revGetOrCreate log ⟨user, aq, r, tc, att⟩) rlog = .ok rlog' →
    ∀ x ∈ rlog, x ∈ rlog'
  | [], rlog, rlog', h => by
    simp only [List.foldlM, pure, Except.pure, Except.ok.injEq] at h
    subst h
    exact fun x hx => hx
  | r :: L, rlog, rlog', h => by
    simp only [List.foldlM, bind, Except.bind] at h
    cases hg : revGetOrCreate rlog ⟨user, aq, r, tc, att⟩ with
    | error e => rw [hg] at h; simp at h
    | ok l1 =>
      rw [hg] at h
      intro x hx
      exact rev_foldlM_mono L l1 rlog' h x ((revGetOrCreate_ok hg).2 x hx)

lemma add_to_revision_log_mono {rlog rlog' : List RevEntry} {user : Nat}
    {a : Answer} {sub : Submission} {flow : Bool}
    (h : add_to_revision_log rlog user a sub flow = .ok rlog') :
    ∀ x ∈ rlog, x ∈ rlog' := by
  unfold add_to_revision_log at h
  exact rev_foldlM_mono _ rlog rlog' h

lemma add_marked_ok {rlog rlog' : List RevEntry} {user : Nat} {a : Answer}
    {sub : Submission} {r : MarkReason}
    (hm : a.is_marked = true) (hr : a.mark_reason = some r)
    (h : add_to_revision_log rlog user a sub true = .ok rlog') :
    (⟨user, a.question.id, translateReason r, sub.test_card,
      sub.attempt_number⟩ : RevEntry) ∈ rlog' := by
  unfold add_to_revision_log at h
  rw [hm, hr] at h
  cases r <;>
    (simp only [translateReason]
     simp only [if_pos, Option.isSome_some, and_true, if_true,
       List.foldlM, bind, Except.bind, true_and, ite_true] at h ⊢
     first
     | (cases hg : revGetOrCreate rlog
          ⟨user, a.question.id, RevReason.MARKED_GUESS, sub.test_card,
            sub.attempt_number⟩ with
        | error e => rw [hg] at h; simp at h
        | ok l1 =>
          rw [hg] at h
          simp only [List.foldlM, pure, Except.pure, Except.ok.injEq] at h
          subst h
          exact (revGetOrCreate_ok hg).1)
     | (cases hg : revGetOrCreate rlog
          ⟨user, a.question.id, RevReason.MARKED_TIME, sub.test_card,
            sub.attempt_number⟩ with
        | error e => rw [hg] at h; simp at h
        | ok l1 =>
          rw [hg] at h
          simp only [List.foldlM, pure, Except.pure, Except.ok.injEq] at h
          subst h
          exact (revGetOrCreate_ok hg).1)
     | (cases hg : revGetOrCreate rlog
          ⟨user, a.question.id, RevReason.MARKED_CONCEPT, sub.test_card,
            sub.attempt_number⟩ with
        | error e => rw [hg] at h; simp at h
        | ok l1 =>
          rw [hg] at h
          simp only [List.foldlM, pure, Except.pure, Except.ok.injEq] at h
          subst h
          exact (revGetOrCreate_ok hg).1))

lemma save_mark_reasons_mono {user : Nat} {sub : Submission}
    {items : List ReasonItem} {answers answers' : List Answer}
    {rlog rlog' : List RevEntry}
    (h : save_mark_reasons user sub items answers rlog = .ok (answers', rlog')) :
    ∀ x ∈ rlog, x ∈ rlog' := by
  induction items generalizing answers rlog with
  | nil =>
    simp only [save_mark_reasons, Except.ok.injEq, Prod.mk.injEq] at h
    obtain ⟨-, h2⟩ := h
    subst h2
    exact fun x hx => hx
  | cons item rest ih =>
    simp only [save_mark_reasons] at h
    split at h
    · exact ih h
    · next b hfilter =>
      cases hadd : add_to_revision_log rlog user
          { b with mark_reason := some item.reason } sub true with
      | error e => rw [hadd] at h; simp at h
      | ok rlog1 =>
        rw [hadd] at h
        exact fun x hx => ih h x (add_to_revision_log_mono hadd x hx)
    · simp at h

lemma save_mark_reasons_untouched {user : Nat} {sub : Submission}
    {items : List ReasonItem} {answers answers' : List Answer}
    {rlog rlog' : List RevEntry}
    (h : save_mark_reasons user sub items answers rlog = .ok (answers', rlog')) :
    ∀ a ∈ answers, (∀ item ∈ items, a.question.id ≠ item.question_id) →
    a ∈ answers' := by
  induction items generalizing answers rlog with
  | nil =>
    simp only [save_mark_reasons, Except.ok.injEq, Prod.mk.injEq] at h
    obtain ⟨h1, -⟩ := h
    subst h1
    exact fun a ha _ => ha
  | cons item rest ih =>
    simp only [save_mark_reasons] at h
    split at h
    · intro a ha hno
      exact ih h a ha (fun it hit => hno it (List.mem_cons_of_mem item hit))
    · next b hfilter =>
      cases hadd : add_to_revision_log rlog user
          { b with mark_reason := some item.reason } sub true with
      | error e => rw [hadd] at h; simp at h
      | ok rlog1 =>
        rw [hadd] at h
        intro a ha hno
        have hne : a.question.id ≠ item.question_id :=
          hno item (List.mem_cons_self item rest)
        have ha' : a ∈ updateAnswerReason answers item.question_id item.reason := by
          unfold updateAnswerReason
          have h2 : a = (fun x => if x.question.id = item.question_id then
              { x with mark_reason := some item.reason } else x) a := by
            simp [hne]
          rw [h2]
          exact List.mem_map_of_mem _ ha
        exact ih h a ha' (fun it hit => hno it (List.mem_cons_of_mem item hit))
    · simp at h

lemma save_mark_reasons_skip {user : Nat} {sub : Submission} :
    ∀ {items : List ReasonItem} (answers : List Answer) (rlog : List RevEntry),
    (∀ item ∈ items,
      answers.filter (fun a => a.question.id = item.question_id) = []) →
    save_mark_reasons user sub items answers rlog = .ok (answers, rlog)
  | [], answers, rlog, _ => rfl
  | item :: rest, answers, rlog, hmiss => by
    simp only [save_mark_reasons]
    rw [hmiss item (List.mem_cons_self item rest)]
    exact save_mark_reasons_skip answers rlog
      (fun it hit => hmiss it (List.mem_cons_of_mem item hit))

lemma save_mark_reasons_spec {user : Nat} {sub : Submission} :
    ∀ (items : List ReasonItem) (answers : List Answer) (rlog : List RevEntry)
      (answers' : List Answer) (rlog' : List RevEntry),
    save_mark_reasons user sub items answers rlog = .ok (answers', rlog') →
    (items.map ReasonItem.question_id).Nodup →
    (answers.map (fun a => a.question.id)).Nodup →
    ∀ item ∈ items, ∀ a ∈ answers, a.question.id = item.question_id →
      ({ a with mark_reason := some item.reason } : Answer) ∈ answers' ∧
      (a.is_marked = true →
        (⟨user, a.question.id, translateReason item.reason, sub.test_card,
          sub.attempt_number⟩ : RevEntry) ∈ rlog')
  | [], answers, rlog, answers', rlog', _, _, _ => by
    intro item hit
    exact absurd hit (List.not_mem_nil item)
  | item :: rest, answers, rlog, answers', rlog', h, hitems, hans => by
    simp only [List.map_cons, List.nodup_cons] at hitems
    obtain ⟨hhead, hrestnd⟩ := hitems
    simp only [save_mark_reasons] at h
    split at h
    · next hfilter =>
      intro it hit a ha haq
      rcases List.mem_cons.mp hit with heq | hmem
      · subst heq
        exfalso
        have hmemf : a ∈ answers.filter
            (fun x => decide (x.question.id = it.question_id)) :=
          List.mem_filter.mpr ⟨ha, by simp [haq]⟩
        rw [hfilter] at hmemf
        exact absurd hmemf (List.not_mem_nil a)
      · exact save_mark_reasons_spec rest answers rlog answers' rlog' h
          hrestnd hans it hmem a ha haq
    · next b hfilter =>
      cases hadd : add_to_revision_log rlog user
          { b with mark_reason := some item.reason } sub true with
      | error e => rw [hadd] at h; simp at h
      | ok rlog1 =>
        rw [hadd] at h
        have h' : save_mark_reasons user sub rest
            (updateAnswerReason answers item.question_id item.reason) rlog1 =
            .ok (answers', rlog') := h
        intro it hit a ha haq
        rcases List.mem_cons.mp hit with heq | hmem
        · subst heq
          have hab : a = b := by
            have hfa : a ∈ answers.filter
                (fun x => decide (x.question.id = it.question_id)) :=
              List.mem_filter.mpr ⟨ha, by simp [haq]⟩
            rw [hfilter] at hfa
            exact List.mem_singleton.mp hfa
          subst hab
          constructor
          · have hupd : ({ a with mark_reason := some it.reason } : Answer) ∈
                updateAnswerReason answers it.question_id it.reason := by
              unfold updateAnswerReason
              have h2 : ({ a with mark_reason := some it.reason } : Answer) =
                  (fun x => if x.question.id = it.question_id then
                    { x with mark_reason := some it.reason } else x) a := by
                simp [haq]
              rw [h2]
              exact List.mem_map_of_mem _ ha
            refine save_mark_reasons_untouched h' _ hupd ?_
            intro it' hit' hcon
            apply hhead
            have hq2 : it.question_id = it'.question_id := by
              rw [← haq]; exact hcon
            rw [hq2]
            exact List.mem_map_of_mem ReasonItem.question_id hit'
          · intro hm
            have hentry := add_marked_ok
              (a := { a with mark_reason := some it.reason }) (r := it.reason)
              hm rfl hadd
            exact save_mark_reasons_mono h' _ hentry
        · have hne : a.question.id ≠ item.question_id := by
            intro hcon
            apply hhead
            rw [← hcon, haq]
            exact List.mem_map_of_mem ReasonItem.question_id hmem
          have ha' : a ∈ updateAnswerReason answers item.question_id
              item.reason := by
            unfold updateAnswerReason
            have h2 : a = (fun x => if x.question.id = item.question_id then
                { x with mark_reason := some item.reason } else x) a := by
              simp [hne]
            rw [h2]
            exact List.mem_map_of_mem _ ha
          have hans' : ((updateAnswerReason answers item.question_id
              item.reason).map (fun a => a.question.id)).Nodup := by
            rw [updateAnswerReason_map_id]; exact hans
          exact save_mark_reasons_spec rest _ rlog1 answers' rlog' h'
            hrestnd hans' it hmem a ha' haq
    · simp at h

/-- C8 amended: for every item of a successful `save_mark_reasons` call
(no duplicate question ids in the batch, at most one Answer row per
question), the matching Answer's `mark_reason` is set to the given
reason, and — when that Answer was marked for review — a Revision Log
entry with the translated reason (Guess → MarkedGuess, TimePressure →
MarkedTime, ConceptError → MarkedConcept) is present afterwards; items
with no matching Answer are skipped without error and without effect. -/
theorem C8_mark_reasons_amended :
    (∀ (user : Nat) (sub : Submission) (items : List ReasonItem)
      (answers : List Answer) (rlog : List RevEntry)
      (answers' : List Answer) (rlog' : List RevEntry),
      save_mark_reasons user sub items answers rlog = .ok (answers', rlog') →
      (items.map ReasonItem.question_id).Nodup →
      (answers.map (fun a => a.question.id)).Nodup →
      ∀ item ∈ items, ∀ a ∈ answers, a.question.id = item.question_id →
        ({ a with mark_reason := some item.reason } : Answer) ∈ answers' ∧
        (a.is_marked = true →
          (⟨user, a.question.id, translateReason item.reason, sub.test_card,
            sub.attempt_number⟩ : RevEntry) ∈ rlog')) ∧
    (∀ (user : Nat) (sub : Submission) (items : List ReasonItem)
      (answers : List Answer) (rlog : List RevEntry),
      (∀ item ∈ items,
        answers.filter (fun a => a.question.id = item.question_id) = []) →
      save_mark_reasons user sub items answers rlog = .ok (answers, rlog)) :=
  ⟨fun _ _ items answers rlog answers' rlog' h h1 h2 =>
     save_mark_reasons_spec items answers rlog answers' rlog' h h1 h2,
   fun _ _ _ answers rlog h => save_mark_reasons_skip answers rlog h⟩

def c8Sub : Submission := ⟨1, "t8", 1, 0, 0, 0, SubStatus.completed⟩

/-- An existing, attempted-but-NOT-marked answer row for question 5. -/
def c8Ans : Answer :=
  ⟨⟨5, "t8", QOption.A, 1, 1/4⟩, some QOption.B, false, false, none⟩

/-- C8 as stated fails on the code: for an item whose Answer exists but
has `is_marked = false`, `save_mark_reasons` sets the `mark_reason` yet
writes NO Revision Log entry (the marked-flow branch requires
`answer.is_marked`). -/
theorem C8_counterexample :
    save_mark_reasons 1 c8Sub [⟨5, MarkReason.GUESS⟩] [c8Ans] [] =
      .ok ([⟨⟨5, "t8", QOption.A, 1, 1/4⟩, some QOption.B, false, false,
        some MarkReason.GUESS⟩], []) ∧
    (⟨1, 5, translateReason MarkReason.GUESS, "t8", 1⟩ : RevEntry) ∉
      ([] : List RevEntry) := by
  constructor
  · norm_num +decide [save_mark_reasons, updateAnswerReason,
      add_to_revision_log, revGetOrCreate, c8Sub, c8Ans, List.filter,
      List.foldlM, pure, Except.pure, bind, Except.bind]
  · simp

/-- A marked, attempted, wrong answer row for question 6. -/
def c8wAns : Answer :=
  ⟨⟨6, "t8", QOption.A, 1, 1/4⟩, some QOption.B, false, true, none⟩

theorem C8_witness :
    ({ c8wAns with mark_reason := some MarkReason.GUESS } : Answer) ∈
      [({ c8wAns with mark_reason := some MarkReason.GUESS } : Answer)] ∧
    (⟨1, c8wAns.question.id, translateReason MarkReason.GUESS, "t8", 1⟩ :
      RevEntry) ∈ [(⟨1, 6, RevReason.MARKED_GUESS, "t8", 1⟩ : RevEntry)] := by
  have h : save_mark_reasons 1 c8Sub [⟨6, MarkReason.GUESS⟩] [c8wAns] [] =
      .ok ([{ c8wAns with mark_reason := some MarkReason.GUESS }],
        [⟨1, 6, RevReason.MARKED_GUESS, "t8", 1⟩]) := by
    norm_num +decide [save_mark_reasons, updateAnswerReason,
      add_to_revision_log, revGetOrCreate, c8Sub, c8wAns, List.filter,
      List.foldlM, pure, Except.pure, bind, Except.bind]
  have hres := C8_mark_reasons_amended.1 1 c8Sub [⟨6, MarkReason.GUESS⟩]
    [c8wAns] [] _ _ h (by simp) (by simp)
    ⟨6, MarkReason.GUESS⟩ (by simp) c8wAns (by simp) rfl
  exact ⟨hres.1, hres.2 rfl⟩

lemma submitLoop_drop {qbank : List Question} {user : Nat} {sub : Submission}
    {d : AnswerData} {q : Question}
    (hq : qbank.find? (fun x => x.id = d.question_id) = some q)
    (hne : q.test_card ≠ sub.test_card) :
    ∀ (pre rest : List AnswerData) (rlog : List RevEntry),
    submitLoop qbank user sub (pre ++ d :: rest) rlog =
      submitLoop qbank user sub (pre ++ rest) rlog
  | [], rest, rlog => by
    simp only [List.nil_append, submitLoop]
    rw [hq]
    simp [hne]
  | p :: pre, rest, rlog => by
    simp only [List.cons_append, submitLoop, List.append_eq,
      submitLoop_drop hq hne pre rest]

/-- C9: a submitted answer whose (existing) question belongs to a
different test than the submission's is silently dropped: `submit_test`
on the batch containing it equals `submit_test` on the batch without it —
no Answer row, no score contribution, no revision entry from it, the rest
of the batch still committed, and never a whole-submission failure caused
by it. -/
theorem C9_foreign_answer_dropped
    (qbank : List Question) (tests : List TestCard) (user : Nat)
    (sub : Submission) (test : TestCard) (pre rest : List AnswerData)
    (d : AnswerData) (q : Question)
    (hq : qbank.find? (fun x => x.id = d.question_id) = some q)
    (hne : q.test_card ≠ sub.test_card)
    (rlog : List RevEntry) (pts : Nat) (unlocked : List (Nat × String)) :
    submit_test qbank tests user sub test (pre ++ d :: rest) rlog pts
      unlocked =
    submit_test qbank tests user sub test (pre ++ rest) rlog pts unlocked := by
  unfold submit_test
  rw [submitLoop_drop hq hne pre rest rlog]

def c9Qbank : List Question :=
  [⟨1, "t1", QOption.A, 1, 1⟩, ⟨9, "other", QOption.A, 1, 1⟩]

def c9Sub : Submission := ⟨1, "t1", 1, 0, 0, 0, SubStatus.in_progress⟩

def c9Test : TestCard := ⟨"t1", "s1", TestType.FULL, 1, 0, 0, true⟩

theorem C9_witness :
    submit_test c9Qbank [] 1 c9Sub c9Test
      ([⟨1, some QOption.A, false⟩] ++ ⟨9, some QOption.A, false⟩ ::
        ([] : List AnswerData)) [] 0 [] =
    submit_test c9Qbank [] 1 c9Sub c9Test
      ([⟨1, some QOption.A, false⟩] ++ ([] : List AnswerData)) [] 0 [] :=
  C9_foreign_answer_dropped c9Qbank [] 1 c9Sub c9Test
    [⟨1, some QOption.A, false⟩] [] ⟨9, some QOption.A, false⟩
    ⟨9, "other", QOption.A, 1, 1⟩
    (by norm_num [c9Qbank, List.find?])
    (by simp [c9Sub]) [] 0 []

lemma submitLoop_countP {qbank : List Question} {user : Nat}
    {sub : Submission} {qid : Nat} {q : Question}
    (hq : qbank.find? (fun x => x.id = qid) = some q)
    (hbel : q.test_card = sub.test_card)
    {data : List AnswerData} {rlog : List RevEntry} {na : List Answer}
    {ms : List Nat} {rl' : List RevEntry}
    (h : submitLoop qbank user sub data rlog = .ok (na, ms, rl')) :
    na.countP (fun a => a.question.id = qid) =
      data.countP (fun d => d.question_id = qid) := by
  induction data generalizing rlog na ms rl' with
  | nil =>
    simp only [submitLoop, Except.ok.injEq, Prod.mk.injEq] at h
    obtain ⟨h1, -, -⟩ := h
    subst h1
    simp
  | cons d rest ih =>
    simp only [submitLoop] at h
    split at h
    · simp at h
    next q' hf =>
      have hq'id : q'.id = d.question_id := by
        simpa using List.find?_some hf
      split at h
      next hbel2 =>
        split at h
        · simp at h
        next rlog1 hadd =>
          cases hrec : submitLoop qbank user sub rest rlog1 with
          | error e => rw [hrec] at h; simp at h
          | ok trip =>
            obtain ⟨na1, ms1, rl1⟩ := trip
            rw [hrec] at h
            simp only [Except.ok.injEq, Prod.mk.injEq] at h
            obtain ⟨h1, -, -⟩ := h
            subst h1
            rw [List.countP_cons, List.countP_cons, ih hrec]
            have hmk : (mkAnswer q' d.selected_option d.is_marked).question.id
                = d.question_id := hq'id
            simp [hmk]
      next hbel2 =>
        have hd : ¬ d.question_id = qid := by
          intro hcon
          rw [hcon] at hf
          rw [hq] at hf
          have hqq : q = q' := by simpa using hf
          exact hbel2 (hqq ▸ hbel)
        rw [List.countP_cons, ih h]
        simp [hd]

/-- C10: `submit_test` does not deduplicate the batch: for a question of
the submission's test, the number of created Answer rows equals the
number of occurrences of its id in the batch, and the stored score is
the clamped sum of the per-row contributions over ALL created rows,
duplicates included. -/
theorem C10_no_deduplication
    (qbank : List Question) (tests : List TestCard) (user : Nat)
    (sub : Submission) (test : TestCard) (data : List AnswerData)
    (rlog : List RevEntry) (pts : Nat) (unlocked : List (Nat × String))
    (out : SubmitOutcome) (qid : Nat) (q : Question)
    (hok : submit_test qbank tests user sub test data rlog pts unlocked
      = .ok out)
    (hq : qbank.find? (fun x => x.id = qid) = some q)
    (hbel : q.test_card = sub.test_card) :
    out.new_answers.countP (fun a => a.question.id = qid) =
      data.countP (fun d => d.question_id = qid) ∧
    out.submission.score = specScore out.new_answers := by
  obtain ⟨-, na, ms, rl', hloop, hout⟩ := submit_test_ok_dest hok
  subst hout
  constructor
  · simpa [finalizeOutcome] using submitLoop_countP hq hbel hloop
  · simpa [finalizeOutcome] using
      calculate_score_eq_specScore na (submitLoop_wf hloop)

def c10Qbank : List Question := [⟨1, "ta", QOption.A, 1, 1⟩]

def c10Sub : Submission := ⟨1, "ta", 1, 0, 0, 0, SubStatus.in_progress⟩

def c10Test : TestCard := ⟨"ta", "s1", TestType.FULL, 1, 0, 0, true⟩

def c10Data : List AnswerData :=
  [⟨1, some QOption.A, false⟩, ⟨1, some QOption.A, false⟩]

/-- Outcome of the C10 witness run: the duplicated correct answer creates
two rows and both count towards the score (2 of 1 possible). -/
def c10Out : SubmitOutcome :=
  { submission := ⟨1, "ta", 1, 2, 200, 0, SubStatus.completed⟩
    new_answers :=
      [⟨⟨1, "ta", QOption.A, 1, 1⟩, some QOption.A, true, false, none⟩,
       ⟨⟨1, "ta", QOption.A, 1, 1⟩, some QOption.A, true, false, none⟩]
    marked_questions := []
    rlog := []
    profile_points := 0
    unlocked := [] }

theorem C10_witness :
    c10Out.new_answers.countP (fun a => a.question.id = 1) =
      c10Data.countP (fun d => d.question_id = 1) ∧
    c10Out.submission.score = specScore c10Out.new_answers := by
  have h : submit_test c10Qbank [] 1 c10Sub c10Test c10Data [] 0 []
      = .ok c10Out := by
    norm_num +decide [submit_test, submitLoop, finalizeOutcome,
      add_to_revision_log, revGetOrCreate, mkAnswer, calculate_score,
      calculate_reward_points, testQuestions, firstQuestion, unlock_next_tests,
      c10Qbank, c10Sub, c10Test, c10Data, c10Out, List.insertionSort,
      List.orderedInsert, List.find?, List.foldlM, pure, Except.pure, bind,
      Except.bind]
  exact C10_no_deduplication c10Qbank [] 1 c10Sub c10Test c10Data [] 0 []
    c10Out 1 ⟨1, "ta", QOption.A, 1, 1⟩ h
    (by norm_num [c10Qbank, List.find?]) rfl
